import Mathlib

/-!
# Quiz Session & Timed-Question Engine — verification development

Shallow embedding of the session/timer/scoring logic of the Telegram quiz
bot (`src/handlers/quiz_handlers.py` and `src/handlers/admin_handlers.py`).

The registry `active_sessions` (a Python dict keyed by user id) is embedded
as an association list; each handler becomes a pure state-transition
function on a `BotState` holding the registry and the sequence of results
written to the external result store.  The `QuizSession` class lives in
`utils/quiz_manager.py`, which is not part of the sources; its operations
are modelled from the specification and marked as such in their doc
comments.
-/

/-- A quiz question: option strings, 0-based index of the correct option,
and an optional per-question time-limit override
(`models/quiz.py` `Question`, as used by the handlers). -/
structure Question where
  text : String
  options : List String
  correct_option : Int
  time_limit : Option Int
deriving DecidableEq, Repr

/-- A quiz definition (`models/quiz.py` `Quiz`, as used by the handlers). -/
structure Quiz where
  id : String
  title : String
  description : String
  time_limit : Int
  negative_marking_factor : ℚ
  questions : List Question
deriving DecidableEq, Repr

/-- One recorded answer entry: the submitted option index
(`-1` stands for "no answer") and whether it was correct. -/
structure AnswerEntry where
  selected_option : Int
  is_correct : Bool
deriving DecidableEq, Repr

/-- One user in-progress attempt
(`utils/quiz_manager.py` `QuizSession`, state as described in the spec). -/
structure QuizSession where
  user_id : Nat
  quiz : Quiz
  current_question_index : Nat
  answers : List AnswerEntry
deriving DecidableEq, Repr

/-- An entry written to the external result store by
`record_quiz_result(user_id, quiz_id, score, max_score, answers)`. -/
structure RecordedResult where
  user_id : Nat
  quiz_id : String
  score : ℚ
  max_score : ℚ
  answers : List AnswerEntry
deriving DecidableEq, Repr

/-- The mutable process state the quiz handlers act on: the
`active_sessions` registry (dict keyed by user id, embedded as an
association list) and the sequence of results recorded so far. -/
structure BotState where
  active_sessions : List (Nat × QuizSession)
  results : List RecordedResult
deriving DecidableEq, Repr

/-- Registry lookup: `active_sessions[user_id]` / `user_id in active_sessions`. -/
def find_session : List (Nat × QuizSession) → Nat → Option QuizSession
  | [], _ => none
  | p :: rest, uid => if p.1 = uid then some p.2 else find_session rest uid

/-- Registry removal: `del active_sessions[user_id]`. -/
def remove_session (l : List (Nat × QuizSession)) (uid : Nat) : List (Nat × QuizSession) :=
  l.filter (fun p => p.1 ≠ uid)

/-- Registry write: `active_sessions[user_id] = session` (the handlers
mutate the stored session object in place; embedded as rebind-by-key). -/
def set_session (l : List (Nat × QuizSession)) (uid : Nat) (s : QuizSession) :
    List (Nat × QuizSession) :=
  remove_session l uid ++ [(uid, s)]

/-- Modelled from the spec: the `QuizSession(user_id, quiz)` constructor of the
missing `utils/quiz_manager.py` — "constructs a new `Active` Session at index 0". -/
def QuizSession.make (uid : Nat) (quiz : Quiz) : QuizSession :=
  ⟨uid, quiz, 0, []⟩

/-- Modelled from the spec: `QuizSession.get_current_question` of the missing
`utils/quiz_manager.py` — the question at `currentQuestionIndex`, or none in
the terminal state. -/
def QuizSession.get_current_question (s : QuizSession) : Option Question :=
  s.quiz.questions.get? s.current_question_index

/-- Modelled from the spec: the two-argument `record_answer(selected, is_correct)`
form used by `time_up` in the missing `utils/quiz_manager.py` — "Append
`{selectedOption, isCorrect, now}` to `answers`" and advance the index. -/
def QuizSession.record_answer_with (s : QuizSession) (sel : Int) (isC : Bool) :
    QuizSession :=
  { s with answers := s.answers ++ [⟨sel, isC⟩],
           current_question_index := s.current_question_index + 1 }

/-- Modelled from the spec: the one-argument `record_answer(selected)` form used
by `answer_callback`, from the missing `utils/quiz_manager.py` — "Append
`{selectedOption, isCorrect = selectedOption == question.correctOption, now}`
to `answers`" and advance. -/
def QuizSession.record_answer (s : QuizSession) (sel : Int) : QuizSession :=
  s.record_answer_with sel
    (match s.get_current_question with
     | some q => sel == q.correct_option
     | none => false)

/-- Modelled from the spec: `is_quiz_completed` of the missing
`utils/quiz_manager.py` — the index "equals `len(questions)` only in
terminal state". -/
def QuizSession.is_quiz_completed (s : QuizSession) : Bool :=
  s.quiz.questions.length ≤ s.current_question_index

/-- Modelled from the spec: `move_to_next_question` of the missing
`utils/quiz_manager.py` — the advance step of the transition. -/
def QuizSession.move_to_next_question (s : QuizSession) : QuizSession :=
  { s with current_question_index := s.current_question_index + 1 }

/-- Modelled from the spec: `calculate_score` of the missing
`utils/quiz_manager.py` — "+1 per correct answer, `-negativeMarkingFactor`
per incorrect or unanswered answer". -/
def QuizSession.calculate_score (s : QuizSession) : ℚ :=
  (s.answers.map
    (fun a => if a.is_correct then (1 : ℚ) else -s.quiz.negative_marking_factor)).sum

/-- Outcome reported by `take_quiz` to the user. -/
inductive StartResult where
  | alreadyActive
  | quizNotFound
  | started
deriving DecidableEq, Repr

/-- `take_quiz` (`quiz_handlers.py` 107–176): reject when the user already
has a registered session; reject when the quiz id does not resolve;
otherwise create a fresh session and register it. -/
def take_quiz (st : BotState) (uid : Nat) (lookedUpQuiz : Option Quiz) :
    BotState × StartResult :=
  match find_session st.active_sessions uid with
  | some _ => (st, .alreadyActive)
  | none =>
    match lookedUpQuiz with
    | none => (st, .quizNotFound)
    | some q =>
      ({ st with active_sessions := st.active_sessions ++ [(uid, QuizSession.make uid q)] },
       .started)

/-- `end_quiz` (`quiz_handlers.py` 582–627): compute the final score and
`max_score = len(questions)`, record the result in the store, and delete
the session from the registry. -/
def end_quiz (st : BotState) (s : QuizSession) : BotState :=
  { active_sessions := remove_session st.active_sessions s.user_id,
    results := st.results ++
      [⟨s.user_id, s.quiz.id, s.calculate_score, (s.quiz.questions.length : ℚ), s.answers⟩] }

/-- The percentage displayed by `end_quiz` (`quiz_handlers.py` 596):
`score/max_score*100`, with no clamping. -/
def end_quiz_percentage (s : QuizSession) : ℚ :=
  s.calculate_score / (s.quiz.questions.length : ℚ) * 100

/-- Outcome of `answer_callback`. -/
inductive AnswerOutcome where
  | noSession
  | questionNotActive
  | completed
  | next
deriving DecidableEq, Repr

/-- `answer_callback` (`quiz_handlers.py` 251–335): reject when the user has
no session; return untouched when there is no current question; otherwise
record the submitted option via `record_answer` and, when the session is
then completed, finalize it (the finalization `show_quiz_results` is absent
from the sources; modelled from the spec as the `end_quiz` finalization:
record the result and remove the session). -/
def answer_callback (st : BotState) (uid : Nat) (selected_option : Int) :
    BotState × AnswerOutcome :=
  match find_session st.active_sessions uid with
  | none => (st, .noSession)
  | some s =>
    match s.get_current_question with
    | none => (st, .questionNotActive)
    | some _ =>
      let s2 := s.record_answer selected_option
      if s2.is_quiz_completed then
        (end_quiz { st with active_sessions := set_session st.active_sessions uid s2 } s2,
         .completed)
      else
        ({ st with active_sessions := set_session st.active_sessions uid s2 }, .next)

/-- `time_up` (`quiz_handlers.py` 440–525): skip when the user has no
session; skip when the session has moved past the armed question index;
otherwise record a forced no-answer (`record_answer(-1, False)`).  The
session stays registered — advancing to the next question happens only in
`time_up_callback`. -/
def time_up (st : BotState) (uid : Nat) (question_index : Nat) : BotState :=
  match find_session st.active_sessions uid with
  | none => st
  | some s =>
    if s.current_question_index = question_index then
      { st with active_sessions :=
          set_session st.active_sessions uid (s.record_answer_with (-1) false) }
    else st

/-- Outcome of `time_up_callback`. -/
inductive ContinueOutcome where
  | noSession
  | nextQuestion
  | finished
deriving DecidableEq, Repr

/-- `time_up_callback` (`quiz_handlers.py` 527–580): on the Continue button,
advance via `move_to_next_question`; if a current question remains, keep the
session, otherwise `end_quiz` it. -/
def time_up_callback (st : BotState) (uid : Nat) : BotState × ContinueOutcome :=
  match find_session st.active_sessions uid with
  | none => (st, .noSession)
  | some s =>
    let s2 := s.move_to_next_question
    match s2.get_current_question with
    | some _ =>
      ({ st with active_sessions := set_session st.active_sessions uid s2 }, .nextQuestion)
    | none =>
      (end_quiz { st with active_sessions := set_session st.active_sessions uid s2 } s2,
       .finished)

/-- `cancel_quiz` (`quiz_handlers.py` 629–639): delete the session if
present, otherwise only reply; the result store is never touched. -/
def cancel_quiz (st : BotState) (uid : Nat) : BotState × Bool :=
  match find_session st.active_sessions uid with
  | some _ => ({ st with active_sessions := remove_session st.active_sessions uid }, true)
  | none => (st, false)

/-! ## Registry lemmas -/

theorem find_session_remove (l : List (Nat × QuizSession)) (uid : Nat) :
    find_session (remove_session l uid) uid = none := by
  induction l with
  | nil => rfl
  | cons p rest ih =>
    by_cases h : p.1 = uid
    · simp [remove_session, List.filter, h] at *
      exact ih
    · simpa [remove_session, List.filter, h, find_session] using ih

theorem find_session_append_of_none (l₁ l₂ : List (Nat × QuizSession)) (uid : Nat)
    (h : find_session l₁ uid = none) :
    find_session (l₁ ++ l₂) uid = find_session l₂ uid := by
  induction l₁ with
  | nil => rfl
  | cons p rest ih =>
    by_cases hp : p.1 = uid
    · simp [find_session, hp] at h
    · simp [find_session, hp] at h ⊢
      exact ih h

theorem find_session_set (l : List (Nat × QuizSession)) (uid : Nat) (s : QuizSession) :
    find_session (set_session l uid s) uid = some s := by
  unfold set_session
  rw [find_session_append_of_none _ _ _ (find_session_remove l uid)]
  simp [find_session]

/-! ## Timer display (`update_timer`, `quiz_handlers.py` 365–439) -/

/-- `remaining_seconds = max(0, int(end_time - time.time()))`
(`quiz_handlers.py` 389). -/
def remaining_seconds (end_time now : Int) : Int :=
  max 0 (end_time - now)

/-- The final-countdown display map (`quiz_handlers.py` 392–401); the
fallback for other values is `str(remaining_seconds)`. -/
def countdown_display (r : Int) : String :=
  if r = 5 then "🕓 5"
  else if r = 4 then "🕓 4"
  else if r = 3 then "🕒 3"
  else if r = 2 then "🕑 2"
  else if r = 1 then "🕐 1"
  else if r = 0 then "⏰ TIME\u0027S UP!"
  else toString r

/-- The time line rendered into the question message
(`quiz_handlers.py` 392–405). -/
def time_text (r : Int) : String :=
  if r ≤ 5 then "⚠️ " ++ countdown_display r ++ " ⚠️"
  else "⏱️ Time remaining: " ++ toString r ++ " seconds"

/-- Delay before the next scheduled tick (`quiz_handlers.py` 427–434):
no further tick at 0, every second in the final 10 seconds, every 3
seconds before that. -/
def next_tick_delay (r : Int) : Option Int :=
  if r > 0 then some (if r ≤ 10 then 1 else 3) else none

/-- One rendered tick: the time line shown and the delay until the next
scheduled tick, if any. -/
structure TimerTick where
  line : String
  next_delay : Option Int
deriving DecidableEq, Repr

/-- `update_timer` (`quiz_handlers.py` 365–439): skip when the user has no
session or has moved past the armed question index; otherwise render the
remaining time and schedule the next tick. -/
def update_timer (st : BotState) (uid : Nat) (question_index : Nat)
    (end_time now : Int) : Option TimerTick :=
  match find_session st.active_sessions uid with
  | none => none
  | some s =>
    if s.current_question_index = question_index then
      some ⟨time_text (remaining_seconds end_time now),
            next_tick_delay (remaining_seconds end_time now)⟩
    else none

/-! ## Quiz creation conversation (`admin_handlers.py`) -/

/-- The per-admin `quiz_creation_data` entry (`admin_handlers.py` 30, 99). -/
structure CreationData where
  title : Option String
  description : Option String
  questions : List Question
  time_limit : Option Int
deriving DecidableEq, Repr

/-- The conversation state strings returned by the admin handlers. -/
inductive ConvState where
  | adding_question
  | setting_time
  | setting_negative_marking
  | finished
deriving DecidableEq, Repr

/-- The fresh creation data installed by `create_quiz`
(`admin_handlers.py` 99–101). -/
def create_quiz_data : CreationData :=
  ⟨none, none, [], none⟩

/-- `add_question` (`admin_handlers.py` 114–207): before a title is set the
message is parsed as `Title | Description`; afterwards as
`Question | A | B | C | D | CorrectOption`, where exactly the four parts
`parts[1:5]` become the options, the correct option is `int(parts[5])`
(a parse failure is caught and rejected), and a correct option outside
`0..3` is rejected.  Every rejection leaves the creation data unchanged
and stays in the same conversation state.  The chat text arrives here
already split on `"|"` as `parts`, and `parsedCorrect` stands for the
result of the `int(parts[5])` conversion (`none` when it raises);
the cosmetic `.strip()` of the fields is omitted. -/
def add_question (d : CreationData) (parts : List String)
    (parsedCorrect : Option Int) : CreationData × ConvState :=
  match d.title with
  | none =>
    if parts.length < 2 then (d, .adding_question)
    else
      ({ d with title := some (parts.headD ""),
                description := some (String.intercalate "|" (parts.drop 1)) },
       .adding_question)
  | some _ =>
    if parts.length < 6 then (d, .adding_question)
    else
      match parsedCorrect with
      | none => (d, .adding_question)
      | some c =>
        if c < 0 ∨ 3 < c then (d, .adding_question)
        else
          ({ d with questions := d.questions ++
              [⟨parts.headD "", (parts.drop 1).take 4, c, none⟩] },
           .adding_question)

/-- `finalize_quiz` (`admin_handlers.py` 209–232): `/done` moves on to the
time-limit prompt only when at least one question has been added. -/
def finalize_quiz (d : CreationData) : ConvState :=
  if d.questions.isEmpty then .adding_question else .setting_time

/-- `set_quiz_time` (`admin_handlers.py` 234–274): parse `int(text)`
(arriving here as the pre-parsed `parsedTime`, `none` when the conversion
raises, which the handler catches and retries) and accept only
`10 ≤ t ≤ 300`. -/
def set_quiz_time (d : CreationData) (parsedTime : Option Int) :
    CreationData × ConvState :=
  match parsedTime with
  | none => (d, .setting_time)
  | some t =>
    if t < 10 ∨ 300 < t then (d, .setting_time)
    else ({ d with time_limit := some t }, .setting_negative_marking)

/-- `set_negative_marking` (`admin_handlers.py` 276–338): parse
`float(text)` (modelled as a pre-parsed `Option ℚ`; a parse failure is
caught and retried), accept only `0 ≤ f ≤ 1`, then build the `Quiz` from
the collected data and hand it to the database.  A missing collected field
raises `KeyError`, which the `except` branch turns into a retry.  The quiz
id is assigned by `add_quiz` in the database layer and is irrelevant here. -/
def set_negative_marking (d : CreationData) (parsedFloat : Option ℚ) :
    CreationData × ConvState × Option Quiz :=
  match parsedFloat with
  | none => (d, .setting_negative_marking, none)
  | some nm =>
    if nm < 0 ∨ 1 < nm then (d, .setting_negative_marking, none)
    else
      match d.title, d.description, d.time_limit with
      | some title, some desc, some tl =>
        (create_quiz_data, .finished, some ⟨"new", title, desc, tl, nm, d.questions⟩)
      | _, _, _ => (d, .setting_negative_marking, none)

/-- One admin input to the creation conversation: a text message or the
`/done` command.  A message carries the split `text.split("|")` as
`parts`, and the pre-parsed results of the `int(text)`, `int(parts[5])`
and `float(text)` conversions the handlers apply to it (`none` when the
conversion raises). -/
inductive CreateInput where
  | message (parts : List String) (intOfText intOfPart5 : Option Int)
      (floatOfText : Option ℚ)
  | done
deriving Repr

/-- One step of the creation conversation, dispatching on the conversation
state exactly as the returned state strings of the handlers prescribe;
yields the quiz created by this step, if any. -/
def create_step : ConvState × CreationData → CreateInput →
    (ConvState × CreationData) × Option Quiz
  | (.adding_question, d), .message parts _ c _ =>
    let r := add_question d parts c
    ((r.2, r.1), none)
  | (.adding_question, d), .done => ((finalize_quiz d, d), none)
  | (.setting_time, d), .message _ t _ _ =>
    let r := set_quiz_time d t
    ((r.2, r.1), none)
  | (.setting_time, d), .done => ((.setting_time, d), none)
  | (.setting_negative_marking, d), .message _ _ _ f =>
    let r := set_negative_marking d f
    ((r.2.1, r.1), r.2.2)
  | (.setting_negative_marking, d), .done => ((.setting_negative_marking, d), none)
  | (.finished, d), _ => ((.finished, d), none)

/-- Run the creation conversation over a sequence of inputs, collecting
every quiz it creates. -/
def create_run : ConvState × CreationData → List CreateInput → List Quiz
  | _, [] => []
  | sd, i :: rest =>
    ((create_step sd i).2.toList) ++ create_run (create_step sd i).1 rest

/-- A structurally valid question: exactly four options and a correct
option index in `0..3`. -/
def valid_question (q : Question) : Prop :=
  q.options.length = 4 ∧ 0 ≤ q.correct_option ∧ q.correct_option ≤ 3

instance : DecidablePred valid_question := fun q => by
  unfold valid_question; infer_instance

/-- A quiz shaped as the creation conversation guarantees. -/
def good_quiz (q : Quiz) : Prop :=
  q.questions ≠ [] ∧ (∀ qq ∈ q.questions, valid_question qq) ∧
  10 ≤ q.time_limit ∧ q.time_limit ≤ 300 ∧
  0 ≤ q.negative_marking_factor ∧ q.negative_marking_factor ≤ 1

instance (q : Quiz) : Decidable (good_quiz q) := by
  unfold good_quiz; infer_instance

/-- `set_question_time` — the list update behind
`update_question_time_limit`. -/
def set_question_time : List Question → Nat → Int → List Question
  | [], _, _ => []
  | q :: rest, 0, t => { q with time_limit := some t } :: rest
  | q :: rest, n + 1, t => q :: set_question_time rest n t

/-- Result of `/editquestiontime`. -/
inductive EditResult where
  | invalid_time
  | quiz_not_found
  | invalid_index
  | updated (quiz : Quiz)
deriving DecidableEq, Repr

/-- `edit_question_time` (`admin_handlers.py` 379–443): validate the time
range first, then the quiz lookup, then the question index, then set the
per-question override (`update_question_time_limit` lives in the missing
`utils/database.py`; modelled from the spec as setting the per-question
time-limit override). -/
def edit_question_time (lookedUpQuiz : Option Quiz) (question_index : Int)
    (time_limit : Int) : EditResult :=
  if time_limit < 10 ∨ 300 < time_limit then .invalid_time
  else
    match lookedUpQuiz with
    | none => .quiz_not_found
    | some quiz =>
      if question_index < 0 ∨ (quiz.questions.length : Int) ≤ question_index then
        .invalid_index
      else
        .updated { quiz with
          questions := set_question_time quiz.questions question_index.toNat time_limit }

/-! ## Concrete fixtures -/

/-- A four-option question whose correct option is index 1. -/
def qOne : Question := ⟨"2+2?", ["3", "4", "5", "6"], 1, none⟩

/-- A four-option question whose correct option is index 0. -/
def qTwo : Question := ⟨"1+2?", ["3", "4", "5", "6"], 0, none⟩

/-- A one-question quiz. -/
def quizOne : Quiz := ⟨"qz1", "One", "single question", 30, 0, [qOne]⟩

/-- A two-question quiz. -/
def quizTwo : Quiz := ⟨"qz2", "Two", "two questions", 30, 0, [qOne, qTwo]⟩

/-- A session over `quizTwo` that has already moved to question index 1. -/
def sessAtOne : QuizSession := ⟨7, quizTwo, 1, [⟨1, true⟩]⟩

/-- A state whose registry holds `sessAtOne` for user 7. -/
def stAtOne : BotState := ⟨[(7, sessAtOne)], []⟩

/-- A fresh session of user 9 over the one-question quiz. -/
def sessOne : QuizSession := QuizSession.make 9 quizOne

/-- A state whose registry holds the fresh one-question session. -/
def stOne : BotState := ⟨[(9, sessOne)], []⟩

/-- A fresh session of user 8 over the two-question quiz. -/
def sessTwo : QuizSession := QuizSession.make 8 quizTwo

/-- A state whose registry holds the fresh two-question session. -/
def stTwo : BotState := ⟨[(8, sessTwo)], []⟩

/-- An empty state. -/
def stEmpty : BotState := ⟨[], []⟩

/-! ## C1 — expire for a superseded index is a no-op -/

/-- C1: when the registered session of `uid` is no longer at question
index `i`, processing the expire event `time_up` for index `i` leaves the
whole state (session, answers, registry, results) unchanged, and firing it
a second time is again a no-op. -/
theorem expire_superseded_is_noop (st : BotState) (uid i : Nat) (s : QuizSession)
    (h : find_session st.active_sessions uid = some s)
    (hne : s.current_question_index ≠ i) :
    time_up st uid i = st ∧ time_up (time_up st uid i) uid i = st := by
  have h1 : time_up st uid i = st := by
    unfold time_up
    rw [h]
    simp [hne]
  exact ⟨h1, by rw [h1, h1]⟩

/-- Witness for C1 at a concrete state: the session of user 7 is at index
1, and expiring index 0 twice changes nothing. -/
theorem expire_superseded_is_noop_witness :
    find_session stAtOne.active_sessions 7 = some sessAtOne ∧
    sessAtOne.current_question_index ≠ 0 ∧
    time_up stAtOne 7 0 = stAtOne ∧ time_up (time_up stAtOne 7 0) 7 0 = stAtOne := by
  have h := expire_superseded_is_noop stAtOne 7 0 sessAtOne rfl (by decide)
  exact ⟨rfl, by decide, h.1, h.2⟩

/-! ## C5 — starting a quiz -/

/-- C5: `take_quiz` rejects a user who already has a registered session
with `AlreadyActive`, leaving the state unchanged; for a user with no
session and a found quiz it registers a fresh session at question index 0
with no recorded answers. -/
theorem take_quiz_spec (st : BotState) (uid : Nat) (lookedUpQuiz : Option Quiz) :
    (∀ s, find_session st.active_sessions uid = some s →
      take_quiz st uid lookedUpQuiz = (st, .alreadyActive)) ∧
    (find_session st.active_sessions uid = none → ∀ q, lookedUpQuiz = some q →
      take_quiz st uid lookedUpQuiz =
        ({ st with active_sessions := st.active_sessions ++ [(uid, QuizSession.make uid q)] },
         .started) ∧
      find_session (take_quiz st uid lookedUpQuiz).1.active_sessions uid =
        some (QuizSession.make uid q) ∧
      (QuizSession.make uid q).current_question_index = 0 ∧
      (QuizSession.make uid q).answers = []) := by
  constructor
  · intro s hs
    unfold take_quiz
    rw [hs]
  · intro hn q hq
    subst hq
    have h1 : take_quiz st uid (some q) =
        ({ st with active_sessions := st.active_sessions ++ [(uid, QuizSession.make uid q)] },
         .started) := by
      unfold take_quiz
      rw [hn]
    refine ⟨h1, ?_, rfl, rfl⟩
    rw [h1]
    rw [find_session_append_of_none _ _ _ hn]
    simp [find_session]

/-- Witness for C5: user 7 (already in a session) is rejected with the
state unchanged, while user 9 starting on an empty registry gets a fresh
session at index 0. -/
theorem take_quiz_spec_witness :
    take_quiz stAtOne 7 (some quizOne) = (stAtOne, .alreadyActive) ∧
    find_session (take_quiz stEmpty 9 (some quizOne)).1.active_sessions 9 =
      some (QuizSession.make 9 quizOne) ∧
    (QuizSession.make 9 quizOne).current_question_index = 0 := by
  have h1 := (take_quiz_spec stAtOne 7 (some quizOne)).1 sessAtOne rfl
  have h2 := (take_quiz_spec stEmpty 9 (some quizOne)).2 rfl quizOne rfl
  exact ⟨h1, h2.2.1, h2.2.2.1⟩

/-! ## C8 — cancel removes the session and records nothing -/

/-- C8: `cancel_quiz` never touches the result store; with a registered
session it removes exactly that registry entry, and with no session it is
a no-op on the state. -/
theorem cancel_quiz_spec (st : BotState) (uid : Nat) :
    (cancel_quiz st uid).1.results = st.results ∧
    (∀ s, find_session st.active_sessions uid = some s →
      cancel_quiz st uid =
        ({ st with active_sessions := remove_session st.active_sessions uid }, true) ∧
      find_session (cancel_quiz st uid).1.active_sessions uid = none) ∧
    (find_session st.active_sessions uid = none → cancel_quiz st uid = (st, false)) := by
  refine ⟨?_, ?_, ?_⟩
  · unfold cancel_quiz
    cases hf : find_session st.active_sessions uid <;> simp
  · intro s hs
    have h1 : cancel_quiz st uid =
        ({ st with active_sessions := remove_session st.active_sessions uid }, true) := by
      unfold cancel_quiz
      rw [hs]
    refine ⟨h1, ?_⟩
    rw [h1]
    exact find_session_remove _ _
  · intro hn
    unfold cancel_quiz
    rw [hn]

/-- Witness for C8: cancelling the one-question session of user 9 at
index 0 empties the registry and writes nothing to the result store, and
cancelling for a user with no session changes nothing. -/
theorem cancel_quiz_spec_witness :
    (cancel_quiz stOne 9).1.results = [] ∧
    find_session (cancel_quiz stOne 9).1.active_sessions 9 = none ∧
    cancel_quiz stEmpty 9 = (stEmpty, false) := by
  have h := cancel_quiz_spec stOne 9
  exact ⟨h.1, (h.2.1 sessOne rfl).2, (cancel_quiz_spec stEmpty 9).2.2 rfl⟩

/-! ## C2 — expire does not complete the session immediately -/

/-- Helper: `time_up` at the armed index rewrites the registry entry with
the forced no-answer recording and touches nothing else. -/
theorem time_up_at_index (st : BotState) (uid i : Nat) (s : QuizSession)
    (h : find_session st.active_sessions uid = some s)
    (hi : s.current_question_index = i) :
    time_up st uid i =
      { st with active_sessions :=
          set_session st.active_sessions uid (s.record_answer_with (-1) false) } := by
  unfold time_up
  rw [h]
  simp [hi]

/-- C2 counterexample: over the one-question quiz, the session of user 9
is active at the armed index 0, yet after processing the expire event the
session is still registered and no result has been recorded — the claimed
immediate transition to Completed with removal from the registry does not
happen. -/
theorem expire_completion_counterexample :
    sessOne.quiz.questions.length = 1 ∧
    sessOne.current_question_index = 0 ∧
    find_session stOne.active_sessions 9 = some sessOne ∧
    ¬ find_session (time_up stOne 9 0).active_sessions 9 = none ∧
    (time_up stOne 9 0).results = [] := by
  refine ⟨rfl, rfl, rfl, ?_, rfl⟩
  intro h
  simp [time_up, stOne, sessOne, find_session, set_session, remove_session,
    QuizSession.make, QuizSession.record_answer_with] at h

/-- C2 amended: for a session active at the armed index `i`, the expire
event records the forced no-answer entry `(-1, incorrect)` and advances
the index, but the session stays registered and no result is recorded;
completion — result recorded, session removed — happens only once the
subsequent Continue callback (`time_up_callback`) finds no further
question. -/
theorem expire_records_and_defers_completion (st : BotState) (uid i : Nat)
    (s : QuizSession)
    (h : find_session st.active_sessions uid = some s)
    (hu : s.user_id = uid)
    (hi : s.current_question_index = i) :
    (time_up st uid i).results = st.results ∧
    find_session (time_up st uid i).active_sessions uid =
      some (s.record_answer_with (-1) false) ∧
    (s.record_answer_with (-1) false).answers = s.answers ++ [⟨-1, false⟩] ∧
    ((s.record_answer_with (-1) false).move_to_next_question.get_current_question = none →
      find_session (time_up_callback (time_up st uid i) uid).1.active_sessions uid = none ∧
      (time_up_callback (time_up st uid i) uid).1.results.length =
        st.results.length + 1) := by
  have h1 := time_up_at_index st uid i s h hi
  refine ⟨by rw [h1], by rw [h1]; exact find_session_set _ _ _, rfl, ?_⟩
  intro hterm
  have h2 : find_session (time_up st uid i).active_sessions uid =
      some (s.record_answer_with (-1) false) := by
    rw [h1]; exact find_session_set _ _ _
  have h3 : time_up_callback (time_up st uid i) uid =
      (end_quiz ⟨set_session (time_up st uid i).active_sessions uid
          ((s.record_answer_with (-1) false).move_to_next_question),
          (time_up st uid i).results⟩
        ((s.record_answer_with (-1) false).move_to_next_question), .finished) := by
    unfold time_up_callback
    rw [h2]
    simp only [hterm]
  rw [h3]
  constructor
  · have hu2 : ((s.record_answer_with (-1) false).move_to_next_question).user_id = uid := hu
    show find_session (remove_session _ _) uid = none
    rw [hu2]
    exact find_session_remove _ _
  · show (_ ++ [_]).length = st.results.length + 1
    rw [List.length_append, h1]
    rfl

/-- Witness for the amended C2 at the one-question quiz: after the expire
event the session of user 9 is still registered with the forced no-answer
entry recorded, and only the subsequent Continue callback removes it and
records the one result. -/
theorem expire_records_and_defers_completion_witness :
    find_session (time_up stOne 9 0).active_sessions 9 =
      some (sessOne.record_answer_with (-1) false) ∧
    (time_up stOne 9 0).results = [] ∧
    find_session (time_up_callback (time_up stOne 9 0) 9).1.active_sessions 9 = none ∧
    (time_up_callback (time_up stOne 9 0) 9).1.results.length = 1 := by
  have h := expire_records_and_defers_completion stOne 9 0 sessOne rfl rfl rfl
  have h4 := h.2.2.2 rfl
  exact ⟨h.2.1, h.1, h4.1, h4.2⟩

/-! ## Characterization of `answer_callback` on an active question -/

/-- Helper: with a registered session and a current question,
`answer_callback` always records the submitted option and either keeps the
updated session or finalizes it. -/
theorem answer_callback_eq (st : BotState) (uid : Nat) (sel : Int)
    (s : QuizSession) (q : Question)
    (h : find_session st.active_sessions uid = some s)
    (hq : s.get_current_question = some q) :
    answer_callback st uid sel =
      if (s.record_answer sel).is_quiz_completed then
        (end_quiz ⟨set_session st.active_sessions uid (s.record_answer sel), st.results⟩
          (s.record_answer sel), .completed)
      else
        (⟨set_session st.active_sessions uid (s.record_answer sel), st.results⟩, .next) := by
  simp only [answer_callback, h, hq]

/-! ## C3 — a duplicate answer is not rejected as stale -/

/-- The state reached from the fresh two-question session after one
(correct) answer to question 0. -/
def stTwoAfterOne : BotState := (answer_callback stTwo 8 1).1

/-- C3 counterexample: after the answer for question index 0 has been
recorded (`len(answers) = 1`), a second identical answer callback is not
rejected: it is applied to the now-current question index 1, appends a
second entry, completes the quiz and records a result — the session state
is not left unchanged. -/
theorem duplicate_answer_counterexample :
    find_session stTwoAfterOne.active_sessions 8 = some ⟨8, quizTwo, 1, [⟨1, true⟩]⟩ ∧
    (answer_callback stTwoAfterOne 8 1).2 = .completed ∧
    find_session (answer_callback stTwoAfterOne 8 1).1.active_sessions 8 = none ∧
    (answer_callback stTwoAfterOne 8 1).1.results.length = 1 ∧
    ¬ (answer_callback stTwoAfterOne 8 1).1 = stTwoAfterOne := by
  refine ⟨rfl, rfl, rfl, rfl, ?_⟩
  intro hEq
  have h1 : find_session (answer_callback stTwoAfterOne 8 1).1.active_sessions 8 =
      none := rfl
  rw [hEq] at h1
  have h2 : find_session stTwoAfterOne.active_sessions 8 =
      some ⟨8, quizTwo, 1, [⟨1, true⟩]⟩ := rfl
  rw [h1] at h2
  exact Option.noConfusion h2

/-- C3 amended: there is no `StaleAnswer` rejection — whenever the session
is registered and some question is current, an answer callback appends an
entry for that current question (the one after the previously answered
index) and advances; when this completes the quiz, the session is removed
and a result recorded instead. -/
theorem duplicate_answer_records_next (st : BotState) (uid : Nat) (sel : Int)
    (s : QuizSession) (q : Question)
    (h : find_session st.active_sessions uid = some s)
    (hu : s.user_id = uid)
    (hq : s.get_current_question = some q) :
    (answer_callback st uid sel).2 ≠ .noSession ∧
    (answer_callback st uid sel).2 ≠ .questionNotActive ∧
    (s.record_answer sel).answers = s.answers ++ [⟨sel, sel == q.correct_option⟩] ∧
    ((s.record_answer sel).is_quiz_completed = false →
      find_session (answer_callback st uid sel).1.active_sessions uid =
        some (s.record_answer sel)) ∧
    ((s.record_answer sel).is_quiz_completed = true →
      find_session (answer_callback st uid sel).1.active_sessions uid = none ∧
      (answer_callback st uid sel).1.results =
        st.results ++ [⟨uid, s.quiz.id, (s.record_answer sel).calculate_score,
          (s.quiz.questions.length : ℚ), (s.record_answer sel).answers⟩]) := by
  have hcb := answer_callback_eq st uid sel s q h hq
  have hu2 : (s.record_answer sel).user_id = uid := hu
  refine ⟨?_, ?_, ?_, ?_, ?_⟩
  · rw [hcb]
    split <;> simp
  · rw [hcb]
    split <;> simp
  · simp [QuizSession.record_answer, QuizSession.record_answer_with, hq]
  · intro hnc
    rw [hcb, if_neg (by rw [hnc]; exact Bool.false_ne_true)]
    exact find_session_set _ _ _
  · intro hc
    rw [hcb, if_pos hc]
    constructor
    · show find_session (remove_session _ _) uid = none
      rw [hu2]
      exact find_session_remove _ _
    · show st.results ++ [_] = st.results ++ [_]
      rw [hu2]
      rfl
  
/-- Witness for the amended C3: at the concrete two-question run, the
second identical answer callback is processed (not ignored), removes the
completed session and records one result. -/
theorem duplicate_answer_records_next_witness :
    (answer_callback stTwoAfterOne 8 1).2 ≠ .noSession ∧
    find_session (answer_callback stTwoAfterOne 8 1).1.active_sessions 8 = none ∧
    (answer_callback stTwoAfterOne 8 1).1.results.length = 1 := by
  have h := duplicate_answer_records_next stTwoAfterOne 8 1
    ⟨8, quizTwo, 1, [⟨1, true⟩]⟩ qTwo rfl rfl rfl
  have h5 := h.2.2.2.2 rfl
  refine ⟨h.1, h5.1, ?_⟩
  rw [h5.2]
  rfl

/-! ## C6 — an out-of-range option is not rejected -/

/-- C6 counterexample: submitting option index 7 against the four-option
question `qOne` is not rejected: the entry `(7, incorrect)` is recorded
and the session advances, so the session state is not unchanged. -/
theorem invalid_option_counterexample :
    qOne.options.length = 4 ∧
    ((7 : Int) < 0 ∨ (qOne.options.length : Int) ≤ 7) ∧
    find_session stTwo.active_sessions 8 = some sessTwo ∧
    sessTwo.get_current_question = some qOne ∧
    find_session (answer_callback stTwo 8 7).1.active_sessions 8 =
      some ⟨8, quizTwo, 1, [⟨7, false⟩]⟩ ∧
    ¬ (answer_callback stTwo 8 7).1 = stTwo := by
  refine ⟨rfl, by decide, rfl, rfl, rfl, ?_⟩
  intro hEq
  have h1 : find_session (answer_callback stTwo 8 7).1.active_sessions 8 =
      some ⟨8, quizTwo, 1, [⟨7, false⟩]⟩ := rfl
  rw [hEq] at h1
  have h2 : find_session stTwo.active_sessions 8 = some sessTwo := rfl
  rw [h2] at h1
  have h3 := congrArg QuizSession.current_question_index (Option.some.inj h1)
  exact absurd h3 (by decide)

/-- C6 amended: an answer whose selected option lies outside
`[0, len(options))` of the current question is processed like any other
answer: it is recorded as an incorrect entry (the in-range correct option
can never equal it) and the session advances. -/
theorem invalid_option_recorded_anyway (st : BotState) (uid : Nat) (sel : Int)
    (s : QuizSession) (q : Question)
    (h : find_session st.active_sessions uid = some s)
    (hq : s.get_current_question = some q)
    (hsel : sel < 0 ∨ (q.options.length : Int) ≤ sel)
    (hcor : 0 ≤ q.correct_option ∧ q.correct_option < (q.options.length : Int)) :
    (answer_callback st uid sel).2 ≠ .noSession ∧
    (answer_callback st uid sel).2 ≠ .questionNotActive ∧
    (s.record_answer sel).answers = s.answers ++ [⟨sel, false⟩] ∧
    (s.record_answer sel).current_question_index = s.current_question_index + 1 ∧
    ((s.record_answer sel).is_quiz_completed = false →
      find_session (answer_callback st uid sel).1.active_sessions uid =
        some (s.record_answer sel)) := by
  have hcb := answer_callback_eq st uid sel s q h hq
  have hne : sel ≠ q.correct_option := by omega
  have hbe : (sel == q.correct_option) = false := by
    simpa using hne
  refine ⟨?_, ?_, ?_, rfl, ?_⟩
  · rw [hcb]
    split <;> simp
  · rw [hcb]
    split <;> simp
  · simp [QuizSession.record_answer, QuizSession.record_answer_with, hq, hbe]
  · intro hnc
    rw [hcb, if_neg (by rw [hnc]; exact Bool.false_ne_true)]
    exact find_session_set _ _ _

/-- Witness for the amended C6: option 7 against the first question of the
two-question quiz is recorded as incorrect and the session advances to
index 1. -/
theorem invalid_option_recorded_anyway_witness :
    (sessTwo.record_answer 7).answers = sessTwo.answers ++ [⟨7, false⟩] ∧
    (sessTwo.record_answer 7).current_question_index = 1 ∧
    find_session (answer_callback stTwo 8 7).1.active_sessions 8 =
      some (sessTwo.record_answer 7) := by
  have h := invalid_option_recorded_anyway stTwo 8 7 sessTwo qOne rfl rfl
    (by decide) (by decide)
  exact ⟨h.2.2.1, h.2.2.2.1, h.2.2.2.2 rfl⟩

/-! ## C7 — correctness flag of the recorded entry -/

/-- C7: the entry recorded for the current question carries the submitted
option index and is flagged correct exactly when that index equals the
0-based correct option index of the question. -/
theorem recorded_entry_correctness (st : BotState) (uid : Nat) (sel : Int)
    (s : QuizSession) (q : Question)
    (h : find_session st.active_sessions uid = some s)
    (hq : s.get_current_question = some q) :
    (∃ e : AnswerEntry, (s.record_answer sel).answers = s.answers ++ [e] ∧
      e.selected_option = sel ∧
      (e.is_correct = true ↔ sel = q.correct_option)) ∧
    ((s.record_answer sel).is_quiz_completed = false →
      find_session (answer_callback st uid sel).1.active_sessions uid =
        some (s.record_answer sel)) := by
  have hcb := answer_callback_eq st uid sel s q h hq
  constructor
  · refine ⟨⟨sel, sel == q.correct_option⟩, ?_, rfl, ?_⟩
    · simp [QuizSession.record_answer, QuizSession.record_answer_with, hq]
    · simp
  · intro hnc
    rw [hcb, if_neg (by rw [hnc]; exact Bool.false_ne_true)]
    exact find_session_set _ _ _

/-- Witness for C7: submitting option 1 against `qOne` (whose correct
option is 1) records an entry flagged correct, and the updated session is
kept registered. -/
theorem recorded_entry_correctness_witness :
    (∃ e : AnswerEntry, (sessTwo.record_answer 1).answers = sessTwo.answers ++ [e] ∧
      e.selected_option = 1 ∧
      (e.is_correct = true ↔ (1 : Int) = qOne.correct_option)) ∧
    find_session (answer_callback stTwo 8 1).1.active_sessions 8 =
      some (sessTwo.record_answer 1) := by
  have h := recorded_entry_correctness stTwo 8 1 sessTwo qOne rfl rfl
  exact ⟨h.1, h.2 rfl⟩

/-! ## C4 — scoring -/

/-- Helper: the summed score equals (+1 per correct entry) plus
(−factor per non-correct entry). -/
theorem score_sum_eq (f : ℚ) : ∀ l : List AnswerEntry,
    (l.map (fun a => if a.is_correct then (1 : ℚ) else -f)).sum =
      ((l.filter (fun a => a.is_correct)).length : ℚ) -
        f * ((l.filter (fun a => !a.is_correct)).length : ℚ)
  | [] => by simp
  | a :: rest => by
    have ih := score_sum_eq f rest
    by_cases hc : a.is_correct
    · simp only [List.map_cons, List.sum_cons, List.filter_cons, hc, if_pos,
        Bool.not_true, ih]
      push_cast [List.length_cons]
      ring
    · simp only [Bool.not_eq_true] at hc
      simp only [List.map_cons, List.sum_cons, List.filter_cons, hc,
        Bool.not_false, ih]
      push_cast [List.length_cons]
      ring

/-- C4: for a session with a complete answer sequence over a quiz with
negative-marking factor in `[0,1]`, the final score is
(number correct) − factor · (number incorrect or unanswered), the
recorded maximum is the number of questions, the displayed percentage is
`raw / max * 100` unclamped, and factor 0 makes non-correct answers
contribute nothing. -/
theorem scoring_spec (st : BotState) (s : QuizSession)
    (hc : s.answers.length = s.quiz.questions.length)
    (h0 : 0 ≤ s.quiz.negative_marking_factor)
    (h1 : s.quiz.negative_marking_factor ≤ 1) :
    s.calculate_score =
      ((s.answers.filter (fun a => a.is_correct)).length : ℚ) -
        s.quiz.negative_marking_factor *
          ((s.answers.filter (fun a => !a.is_correct)).length : ℚ) ∧
    (end_quiz st s).results =
      st.results ++ [⟨s.user_id, s.quiz.id, s.calculate_score,
        (s.quiz.questions.length : ℚ), s.answers⟩] ∧
    end_quiz_percentage s = s.calculate_score / (s.quiz.questions.length : ℚ) * 100 ∧
    (s.quiz.negative_marking_factor = 0 →
      s.calculate_score = ((s.answers.filter (fun a => a.is_correct)).length : ℚ)) := by
  have hs : s.calculate_score =
      ((s.answers.filter (fun a => a.is_correct)).length : ℚ) -
        s.quiz.negative_marking_factor *
          ((s.answers.filter (fun a => !a.is_correct)).length : ℚ) :=
    score_sum_eq _ _
  refine ⟨hs, rfl, rfl, ?_⟩
  intro hz
  rw [hs, hz]
  ring

/-- A 4-question quiz with negative-marking factor 1/4. -/
def quizFour : Quiz :=
  ⟨"qz4", "Four", "four questions", 30, 1/4, [qOne, qTwo, qOne, qTwo]⟩

/-- A completed attempt at `quizFour` with answers
[correct, incorrect, no-answer, correct]. -/
def sessFourDone : QuizSession :=
  ⟨4, quizFour, 4, [⟨1, true⟩, ⟨1, false⟩, ⟨-1, false⟩, ⟨0, true⟩]⟩

/-- A 2-question quiz with negative-marking factor 1. -/
def quizHarsh : Quiz := ⟨"qzh", "Harsh", "factor one", 30, 1, [qOne, qTwo]⟩

/-- A completed all-wrong attempt at `quizHarsh`. -/
def sessHarshDone : QuizSession := ⟨5, quizHarsh, 2, [⟨0, false⟩, ⟨1, false⟩]⟩

/-- Witness for C4: the spec example — 4 questions, factor 0.25, answers
[correct, incorrect, no-answer, correct] — scores raw 1.5 out of max 4,
percentage 37.5; and an all-wrong attempt with factor 1 has unclamped
percentage −100. -/
theorem scoring_spec_witness :
    sessFourDone.calculate_score = 3/2 ∧
    (end_quiz stEmpty sessFourDone).results =
      [⟨4, "qz4", sessFourDone.calculate_score, 4, sessFourDone.answers⟩] ∧
    end_quiz_percentage sessFourDone = 75/2 ∧
    sessHarshDone.calculate_score = -2 ∧
    end_quiz_percentage sessHarshDone = -100 := by
  have h4 := scoring_spec stEmpty sessFourDone rfl
    (by norm_num [sessFourDone, quizFour]) (by norm_num [sessFourDone, quizFour])
  have hh := scoring_spec stEmpty sessHarshDone rfl
    (by norm_num [sessHarshDone, quizHarsh]) (by norm_num [sessHarshDone, quizHarsh])
  have hsc4 : sessFourDone.calculate_score = 3/2 := by
    rw [h4.1]
    norm_num [sessFourDone, quizFour]
  have hsch : sessHarshDone.calculate_score = -2 := by
    rw [hh.1]
    norm_num [sessHarshDone, quizHarsh]
  refine ⟨hsc4, ?_, ?_, hsch, ?_⟩
  · have := h4.2.1
    simpa [stEmpty] using this
  · rw [h4.2.2.1, hsc4]
    norm_num [sessFourDone, quizFour]
  · rw [hh.2.2.1, hsch]
    norm_num [sessHarshDone, quizHarsh]

/-! ## C9 — tick cadence and the distinguished time-up rendering -/

/-- Helper: the normal-countdown line never coincides with the
distinguished time-up line, whatever number is spliced into it. -/
theorem normal_line_ne_times_up (s : String) :
    ("⏱️ Time remaining: " ++ s) ≠ "⚠️ ⏰ TIME'S UP! ⚠️" := by
  intro h
  have h2 := congrArg (fun t => t.data.head?) h
  simp only at h2
  have h3 : ("⏱️ Time remaining: " ++ s).data.head? = some '⏱' := rfl
  rw [h3] at h2
  exact absurd h2 (by decide)

/-- Helper: for a nonnegative remaining time, the rendered line is the
distinguished time-up line exactly at 0. -/
theorem time_text_eq_times_up_iff (r : Int) (h0 : 0 ≤ r) :
    time_text r = "⚠️ ⏰ TIME'S UP! ⚠️" ↔ r = 0 := by
  constructor
  · intro h
    by_cases h5 : r ≤ 5
    · interval_cases r <;> simp_all [time_text, countdown_display]
    · exfalso
      unfold time_text at h
      rw [if_neg h5, String.append_assoc] at h
      exact normal_line_ne_times_up _ h
  · intro h
    subst h
    rfl

/-- C9: a processed tick for the current question computes
`remaining = max(0, deadline − now)`, schedules the next tick 3 seconds
later while more than 10 seconds remain, 1 second later in the final
(0, 10] stretch, schedules nothing at 0, and renders the distinguished
time-up line exactly when the remaining time is 0. -/
theorem tick_cadence (st : BotState) (uid qi : Nat) (s : QuizSession)
    (end_time now : Int) (tick : TimerTick)
    (h : find_session st.active_sessions uid = some s)
    (hi : s.current_question_index = qi)
    (ht : update_timer st uid qi end_time now = some tick) :
    remaining_seconds end_time now = max 0 (end_time - now) ∧
    0 ≤ remaining_seconds end_time now ∧
    tick.line = time_text (remaining_seconds end_time now) ∧
    (10 < remaining_seconds end_time now → tick.next_delay = some 3) ∧
    (0 < remaining_seconds end_time now ∧ remaining_seconds end_time now ≤ 10 →
      tick.next_delay = some 1) ∧
    (remaining_seconds end_time now = 0 → tick.next_delay = none) ∧
    (tick.line = "⚠️ ⏰ TIME'S UP! ⚠️" ↔ remaining_seconds end_time now = 0) := by
  have h0 : 0 ≤ remaining_seconds end_time now := le_max_left _ _
  have htick : tick = ⟨time_text (remaining_seconds end_time now),
      next_tick_delay (remaining_seconds end_time now)⟩ := by
    simp only [update_timer, h] at ht
    rw [if_pos hi] at ht
    exact (Option.some.inj ht).symm
  subst htick
  refine ⟨rfl, h0, rfl, ?_, ?_, ?_, ?_⟩
  · intro hgt
    unfold next_tick_delay
    rw [if_pos (by omega), if_neg (by omega)]
  · intro hin
    unfold next_tick_delay
    rw [if_pos (by omega), if_pos (by omega)]
  · intro hz
    show next_tick_delay _ = none
    rw [hz]
    rfl
  · exact time_text_eq_times_up_iff _ h0

/-- Witness for C9 at concrete times: with 20 seconds remaining the next
tick is 3 seconds out, with 7 seconds it is 1 second out, and at the
deadline no tick is scheduled and the time-up line is rendered. -/
theorem tick_cadence_witness :
    (update_timer stOne 9 0 120 100 = some ⟨time_text 20, some 3⟩) ∧
    (update_timer stOne 9 0 107 100 = some ⟨time_text 7, some 1⟩) ∧
    (update_timer stOne 9 0 100 100 = some ⟨time_text 0, none⟩) ∧
    time_text 0 = "⚠️ ⏰ TIME'S UP! ⚠️" := by
  have h20 := tick_cadence stOne 9 0 sessOne 120 100 ⟨time_text 20, some 3⟩ rfl rfl rfl
  have h7 := tick_cadence stOne 9 0 sessOne 107 100 ⟨time_text 7, some 1⟩ rfl rfl rfl
  have h0 := tick_cadence stOne 9 0 sessOne 100 100 ⟨time_text 0, none⟩ rfl rfl rfl
  exact ⟨rfl, rfl, rfl, (h0.2.2.2.2.2.2).mpr rfl⟩

/-! ## C10 — invariants of quiz creation -/

/-- The invariant the creation conversation maintains: collected questions
are valid, a collected time limit is in range, and past the question
stage at least one question has been collected. -/
def creation_inv : ConvState × CreationData → Prop
  | (cs, d) =>
    (∀ qq ∈ d.questions, valid_question qq) ∧
    (∀ tl, d.time_limit = some tl → 10 ≤ tl ∧ tl ≤ 300) ∧
    (cs = .setting_time → d.questions ≠ []) ∧
    (cs = .setting_negative_marking → d.questions ≠ [])

/-- Helper: `add_question` only ever appends a valid question, never
touches the collected time limit, and stays in the question state. -/
theorem add_question_preserves (d : CreationData) (parts : List String)
    (parsedCorrect : Option Int)
    (hq : ∀ qq ∈ d.questions, valid_question qq) :
    (∀ qq ∈ (add_question d parts parsedCorrect).1.questions, valid_question qq) ∧
    (add_question d parts parsedCorrect).1.time_limit = d.time_limit ∧
    (add_question d parts parsedCorrect).2 = .adding_question := by
  cases hd : d.title with
  | none =>
    simp only [add_question, hd]
    split
    · exact ⟨hq, rfl, rfl⟩
    · exact ⟨hq, rfl, rfl⟩
  | some ttl =>
    simp only [add_question, hd]
    by_cases hlen : parts.length < 6
    · rw [if_pos hlen]
      exact ⟨hq, rfl, rfl⟩
    · rw [if_neg hlen]
      cases parsedCorrect with
      | none => exact ⟨hq, rfl, rfl⟩
      | some c =>
        dsimp only
        by_cases hg : c < 0 ∨ 3 < c
        · rw [if_pos hg]
          exact ⟨hq, rfl, rfl⟩
        · rw [if_neg hg]
          refine ⟨?_, rfl, rfl⟩
          intro qq hmem
          simp only [List.mem_append, List.mem_singleton] at hmem
          rcases hmem with hm | hm
          · exact hq qq hm
          · subst hm
            refine ⟨?_, by dsimp only; omega, by dsimp only; omega⟩
            simp only [List.length_take, List.length_drop]
            omega

/-- Helper: each conversation step preserves the invariant, and any quiz
it produces is well-shaped. -/
theorem create_step_preserves (sd : ConvState × CreationData) (i : CreateInput)
    (h : creation_inv sd) :
    creation_inv (create_step sd i).1 ∧
    ∀ q, (create_step sd i).2 = some q → good_quiz q := by
  obtain ⟨cs, d⟩ := sd
  obtain ⟨hq, htl, hst, hsn⟩ := h
  cases cs with
  | adding_question =>
    cases i with
    | message parts it ip f =>
      have ha := add_question_preserves d parts ip hq
      refine ⟨⟨ha.1, ?_, ?_, ?_⟩, by simp [create_step]⟩
      · rw [ha.2.1]; exact htl
      · rw [ha.2.2]; intro hcontra; exact absurd hcontra (by simp)
      · rw [ha.2.2]; intro hcontra; exact absurd hcontra (by simp)
    | done =>
      refine ⟨⟨hq, htl, ?_, ?_⟩, by simp [create_step]⟩
      · intro hfin
        unfold finalize_quiz at hfin
        split at hfin
        · exact absurd hfin (by simp)
        · rename_i hne
          simpa using hne
      · intro hfin
        unfold finalize_quiz at hfin
        split at hfin <;> simp_all
  | setting_time =>
    have hne : d.questions ≠ [] := hst rfl
    cases i with
    | message parts it ip f =>
      simp only [create_step]
      cases it with
      | none => exact ⟨⟨hq, htl, fun _ => hne, fun _ => hne⟩, by simp [set_quiz_time]⟩
      | some t =>
        simp only [set_quiz_time]
        split
        · exact ⟨⟨hq, htl, fun _ => hne, fun _ => hne⟩, by simp⟩
        · rename_i hg
          refine ⟨⟨hq, ?_, fun _ => hne, fun _ => hne⟩, by simp⟩
          intro tl htl2
          simp only [Option.some.injEq] at htl2
          omega
    | done =>
      exact ⟨⟨hq, htl, fun _ => hne, fun _ => hne⟩, by simp [create_step]⟩
  | setting_negative_marking =>
    have hne : d.questions ≠ [] := hsn rfl
    cases i with
    | message parts it ip f =>
      simp only [create_step]
      cases f with
      | none => exact ⟨⟨hq, htl, fun _ => hne, fun _ => hne⟩, by simp [set_negative_marking]⟩
      | some nm =>
        simp only [set_negative_marking]
        split
        · exact ⟨⟨hq, htl, fun _ => hne, fun _ => hne⟩, by simp⟩
        · rename_i hg
          cases hdt : d.title with
          | none => exact ⟨⟨hq, htl, fun _ => hne, fun _ => hne⟩, by simp⟩
          | some ttl =>
            cases hdd : d.description with
            | none => exact ⟨⟨hq, htl, fun _ => hne, fun _ => hne⟩, by simp⟩
            | some desc =>
              cases hdl : d.time_limit with
              | none => exact ⟨⟨hq, htl, fun _ => hne, fun _ => hne⟩, by simp⟩
              | some tl =>
                refine ⟨⟨by simp [create_quiz_data], by simp [create_quiz_data],
                  by simp, by simp⟩, ?_⟩
                intro q hqeq
                simp only [Option.some.injEq] at hqeq
                subst hqeq
                have hb := htl tl hdl
                have hnm := not_or.mp hg
                exact ⟨hne, hq, hb.1, hb.2, not_lt.mp hnm.1, not_lt.mp hnm.2⟩
    | done =>
      exact ⟨⟨hq, htl, fun _ => hne, fun _ => hne⟩, by simp [create_step]⟩
  | finished =>
    cases i with
    | message parts it ip f =>
      exact ⟨⟨hq, htl, by simp [create_step], by simp [create_step]⟩, by simp [create_step]⟩
    | done =>
      exact ⟨⟨hq, htl, by simp [create_step], by simp [create_step]⟩, by simp [create_step]⟩

/-- Helper: every quiz collected along a run from an invariant state is
well-shaped. -/
theorem create_run_good (inputs : List CreateInput) :
    ∀ sd, creation_inv sd → ∀ q ∈ create_run sd inputs, good_quiz q := by
  induction inputs with
  | nil =>
    intro sd h q hmem
    simp [create_run] at hmem
  | cons i rest ih =>
    intro sd h q hmem
    have hp := create_step_preserves sd i h
    simp only [create_run, List.mem_append] at hmem
    rcases hmem with hm | hm
    · rw [Option.mem_toList] at hm
      exact hp.2 q hm
    · exact ih _ hp.1 q hm

/-- C10: every quiz produced by the creation conversation started by
`/create` has at least one question, every question has exactly four
options with its correct option in 0..3, a time limit in [10, 300] and a
negative-marking factor in [0, 1]; `/editquestiontime` only updates with a
time limit in the same range; and each validating handler rejects a
violating input with the collected data unchanged and no quiz created. -/
theorem creation_validation :
    (∀ (inputs : List CreateInput) (q : Quiz),
      q ∈ create_run (.adding_question, create_quiz_data) inputs → good_quiz q) ∧
    (∀ (lookedUpQuiz : Option Quiz) (qi t : Int) (res : Quiz),
      edit_question_time lookedUpQuiz qi t = .updated res → 10 ≤ t ∧ t ≤ 300) ∧
    (∀ (d : CreationData) (t : Int), (t < 10 ∨ 300 < t) →
      set_quiz_time d (some t) = (d, .setting_time)) ∧
    (∀ (d : CreationData) (nm : ℚ), (nm < 0 ∨ 1 < nm) →
      set_negative_marking d (some nm) = (d, .setting_negative_marking, none)) ∧
    (∀ (d : CreationData) (ttl : String) (parts : List String) (c : Int),
      d.title = some ttl → (c < 0 ∨ 3 < c) →
      add_question d parts (some c) = (d, .adding_question)) := by
  refine ⟨?_, ?_, ?_, ?_, ?_⟩
  · intro inputs q hmem
    refine create_run_good inputs _ ?_ q hmem
    exact ⟨by simp [create_quiz_data], by simp [create_quiz_data], by simp, by simp⟩
  · intro qz qi t res hupd
    by_cases hg : t < 10 ∨ 300 < t
    · unfold edit_question_time at hupd
      rw [if_pos hg] at hupd
      exact absurd hupd (by simp)
    · omega
  · intro d t hg
    unfold set_quiz_time
    dsimp only
    rw [if_pos hg]
  · intro d nm hg
    unfold set_negative_marking
    dsimp only
    rw [if_pos hg]
  · intro d ttl parts c hd hg
    unfold add_question
    rw [hd]
    by_cases hlen : parts.length < 6
    · rw [if_pos hlen]
    · rw [if_neg hlen]
      dsimp only
      rw [if_pos hg]

/-- A concrete creation conversation: title message, one valid question,
`/done`, time limit 60, negative marking 0.25. -/
def exCreateInputs : List CreateInput :=
  [.message ["T ", " D"] none none none,
   .message ["Q ", " A ", " B ", " C ", " D ", " 1"] none (some 1) none,
   .done,
   .message ["60"] (some 60) none none,
   .message ["0.25"] none none (some (1/4))]

/-- The quiz the concrete conversation produces. -/
def exQuiz : Quiz :=
  ⟨"new", "T ", " D", 60, 1/4, [⟨"Q ", [" A ", " B ", " C ", " D "], 1, none⟩]⟩

/-- Witness for C10: the concrete conversation produces exactly `exQuiz`,
which is well-shaped, and a concrete in-range question-time edit is
accepted within bounds. -/
theorem creation_validation_witness :
    create_run (.adding_question, create_quiz_data) exCreateInputs = [exQuiz] ∧
    good_quiz exQuiz ∧
    (10 : Int) ≤ 30 ∧ (30 : Int) ≤ 300 := by
  have hrun : create_run (.adding_question, create_quiz_data) exCreateInputs = [exQuiz] := by
    norm_num [create_run, create_step, add_question, finalize_quiz, set_quiz_time,
      set_negative_marking, create_quiz_data, exCreateInputs, exQuiz,
      String.intercalate, String.intercalate.go]
  refine ⟨hrun, ?_, ?_⟩
  · exact creation_validation.1 exCreateInputs exQuiz (by rw [hrun]; simp)
  · exact creation_validation.2.1 (some exQuiz) 0 30
      { exQuiz with questions := set_question_time exQuiz.questions 0 30 }
      (by unfold edit_question_time; norm_num [exQuiz, set_question_time])
